import Mathlib

/-!
# Verification of the ClothingApp try-on fallback pipeline

A shallow embedding, in Lean 4, of the image-manipulation core of
`backend/ai_service.py` (class `AIService`), together with theorems settling
the specification's claims about it.

Modelling conventions:
* A decoded raster image is `Img`: a width, a height, and a pixel function.
  Encoded image bytes are `ImageBytes := Option Img`: `some img` is a byte
  string that decodes to `img`, `none` is an undecodable byte string
  (`PIL.Image.open` raises on it).  JPEG re-encoding preserves dimensions, so
  for the dimension-level claims this codec model is faithful.
* `PIL.Image.getdata`/`putdata` expose a flat pixel list, so the per-pixel
  background keyer is embedded on `List RGBA` exactly as the source iterates.
* Python's `int()` on a positive float is `Int.floor`; arithmetic on sizes is
  embedded over `ℚ` (the float values involved are small integer ratios).
* A Python function that may `raise` is embedded as an `Except`/`Option`
  returning function; a `try/except` block is a `match` on that result.
* Network services (`replicate`, the Gradio OOTDiffusion space) are oracles:
  a `StageOutcome` parameter of the orchestrator.
-/

namespace ClothingApp

/-- An RGBA pixel as PIL's `getdata` yields it: `(r, g, b, a)`, each 0–255. -/
abbrev RGBA := ℕ × ℕ × ℕ × ℕ

/-- An RGB pixel `(r, g, b)` (images opened with `.convert("RGB")`). -/
abbrev RGB := ℕ × ℕ × ℕ

/-- A decoded raster image: dimensions plus a pixel map (RGBA-capable). -/
structure Img where
  width : ℕ
  height : ℕ
  pix : ℕ → ℕ → RGBA

/-- Encoded image bytes: `some img` decodes to `img`, `none` is undecodable. -/
abbrev ImageBytes := Option Img

/-! ## Background keyer: `AIService._remove_background_simple`

The source converts the image to RGBA, walks `img.getdata()` (a flat pixel
list), maps every pixel with all three colour channels `> 200` to
`(255, 255, 255, 0)` and keeps every other pixel, then `putdata`s the new
list back.  The embedding acts on that flat RGBA list. -/

/-- Per-pixel rule of `_remove_background_simple`: a pixel with
`r > 200 and g > 200 and b > 200` becomes transparent white, any other pixel
is passed through unchanged (alpha included). -/
def keyPixel (item : RGBA) : RGBA :=
  if item.1 > 200 ∧ item.2.1 > 200 ∧ item.2.2.1 > 200 then
    (255, 255, 255, 0)
  else
    item

/-- `AIService._remove_background_simple`, on the RGBA `getdata` list of the
image (the `convert("RGBA")` of an RGB image appends alpha 255 to each pixel;
`convertRGBA` below embeds that step). -/
def remove_background_simple (datas : List RGBA) : List RGBA :=
  datas.map keyPixel

/-- `img.convert("RGBA")` on RGB data: each pixel gains alpha 255. -/
def convertRGBA (datas : List RGB) : List RGBA :=
  datas.map (fun p => (p.1, p.2.1, p.2.2, 255))

/-! ## Geometry: `AIService._ensure_aspect_ratio`

`_ensure_aspect_ratio(img_bytes, target_ratio=0.75)` decodes the bytes
(`Image.open` raises on undecodable input — the enclosing `try/except`
returns `img_bytes` unchanged), applies `exif_transpose` and `convert('RGB')`
(our decoded `Img` already is the oriented RGB bitmap), and:
* if `|w/h - target_ratio| < 0.01`, returns the input bytes unchanged;
* if too narrow, pastes the image centred on a white canvas of size
  `(int(h*target_ratio), h)`;
* if too wide, pastes it centred on a white canvas of size
  `(w, int(w/target_ratio))`;
then re-encodes.  `int()` of a positive float is embedded as
`Int.floor` + `Int.toNat`. -/

/-- `PIL.Image.new(mode, (w, h), color)`: a solid canvas. -/
def imageNew (w h : ℕ) (color : RGB) : Img :=
  ⟨w, h, fun _ _ => (color.1, color.2.1, color.2.2, 255)⟩

/-- `base.paste(im, (ox, oy))`: overwrite the rectangle of `base` at offset
`(ox, oy)` with `im` (no mask), clipping at the canvas border. -/
def Img.paste (base : Img) (im : Img) (ox oy : ℕ) : Img :=
  ⟨base.width, base.height, fun x y =>
    if ox ≤ x ∧ x < ox + im.width ∧ oy ≤ y ∧ y < oy + im.height then
      im.pix (x - ox) (y - oy)
    else
      base.pix x y⟩

/-- `AIService._ensure_aspect_ratio` (`target_ratio` defaults to `0.75` at
the call sites).  Undecodable bytes hit the `except` branch, which returns
the input bytes unchanged. -/
def ensure_aspect_ratio (img_bytes : ImageBytes) (target_ratio : ℚ) :
    ImageBytes :=
  match img_bytes with
  | none => img_bytes
  | some img =>
    let w := img.width
    let h := img.height
    let current_ratio : ℚ := (w : ℚ) / (h : ℚ)
    if |current_ratio - target_ratio| < 1/100 then
      img_bytes
    else if current_ratio < target_ratio then
      let new_w : ℕ := (⌊(h : ℚ) * target_ratio⌋).toNat
      let new_h : ℕ := h
      let new_img := (imageNew new_w new_h (255, 255, 255)).paste img
        ((new_w - w) / 2) 0
      some new_img
    else
      let new_w : ℕ := w
      let new_h : ℕ := (⌊(w : ℚ) / target_ratio⌋).toNat
      let new_img := (imageNew new_w new_h (255, 255, 255)).paste img 0
        ((new_h - h) / 2)
      some new_img

/-- Width of the image encoded by a byte string, when it decodes. -/
def bytesWidth (b : ImageBytes) : Option ℕ := b.map Img.width

/-- Height of the image encoded by a byte string, when it decodes. -/
def bytesHeight (b : ImageBytes) : Option ℕ := b.map Img.height

/-- A 1×10 all-black test image (decodable, extreme 0.1 aspect ratio). -/
def tallTestImg : Img := ⟨1, 10, fun _ _ => (0, 0, 0, 255)⟩

/-! ## Border trimming: `trim` (inner function of `AIService._try_on_gradio`)

```python
def trim(im):
    bg = Image.new(im.mode, im.size, im.getpixel((0,0)))
    diff = ImageChops.difference(im, bg)
    diff = ImageChops.add(diff, diff, 2.0, -100)
    bbox = diff.getbbox()
    if bbox:
        return im.crop(bbox)
    return im
```

`im` is an RGB image (`Image.open(f).convert("RGB")`), embedded as its row
list.  `ImageChops.difference` is the per-channel absolute difference with
the constant background colour `im.getpixel((0,0))`;
`ImageChops.add(d, d, 2.0, -100)` computes `(d + d)/2.0 - 100 = d - 100`
clipped to `[0, 255]`, so a pixel of the final `diff` is nonzero in some
band exactly when some channel differs from the background by more than 100.
`getbbox` returns the bounding box `(left, upper, right, lower)` of those
nonzero pixels (exclusive right/lower), or `None` when there are none. -/

/-- An RGB raster image as its list of pixel rows. -/
structure RGBImage where
  rows : List (List RGB)

/-- Image height (number of rows). -/
def RGBImage.height (im : RGBImage) : ℕ := im.rows.length

/-- Image width (length of the first row; rows of a decoded raster are all
of this length). -/
def RGBImage.width (im : RGBImage) : ℕ := im.rows.headI.length

/-- `im.getpixel((0,0))`: the top-left pixel. -/
def RGBImage.getpixel00 (im : RGBImage) : RGB := im.rows.headI.headI

/-- Whether the thresholded difference `add(diff, diff, 2.0, -100)` is
nonzero at this pixel: some channel differs from the background by more
than 100. -/
def pixelDiffers (p q : RGB) : Bool :=
  decide (100 < Nat.dist p.1 q.1) || decide (100 < Nat.dist p.2.1 q.2.1) ||
    decide (100 < Nat.dist p.2.2 q.2.2)

/-- Row indices holding a pixel that differs from the background beyond the
threshold (ascending, as `getbbox` scans them). -/
def differingRows (im : RGBImage) : List ℕ :=
  (List.range im.height).filter
    (fun r => (im.rows.getD r []).any (fun p => pixelDiffers p im.getpixel00))

/-- Column indices holding a pixel that differs from the background beyond
the threshold (ascending). -/
def differingCols (im : RGBImage) : List ℕ :=
  (List.range im.width).filter
    (fun c => im.rows.any
      (fun row => pixelDiffers (row.getD c (0, 0, 0)) im.getpixel00))

/-- `diff.getbbox()`: `(left, upper, right, lower)` of the nonzero region of
the thresholded difference, `None` when the region is empty. -/
def getbbox (im : RGBImage) : Option (ℕ × ℕ × ℕ × ℕ) :=
  match differingCols im, differingRows im with
  | c0 :: cs, r0 :: rs =>
      some (c0, r0, cs.foldl max c0 + 1, rs.foldl max r0 + 1)
  | _, _ => none

/-- `im.crop((left, upper, right, lower))`. -/
def RGBImage.crop (im : RGBImage) (box : ℕ × ℕ × ℕ × ℕ) : RGBImage :=
  ⟨((im.rows.drop box.2.1).take (box.2.2.2 - box.2.1)).map
    (fun row => (row.drop box.1).take (box.2.2.1 - box.1))⟩

/-- The `trim` inner function of `_try_on_gradio`. -/
def trim (im : RGBImage) : RGBImage :=
  match getbbox im with
  | some bbox => im.crop bbox
  | none => im

/-! ## Disclaimer stamper: `AIService._add_watermark`

The whole body sits in a `try` whose `except` returns the input bytes
unchanged.  Inside: decode (`Image.open` — raises on undecodable bytes),
pick a font path (`msjh.ttc` if present, else `arial.ttf`), compute
`font_size = max(16, int(h * 0.025))`, load the font (an inner `try` falls
back to `ImageFont.load_default()`), measure the text with `draw.textbbox`,
position it bottom-centre (`x = (w - text_w)//2`, `y = h - text_h - 20`),
draw a black outline at the four diagonal offsets and the white main text,
and re-encode as JPEG.  Font metrics and glyph shapes are external to the
embedding (`WatermarkEnv`); every PIL drawing call preserves the image's
dimensions and draws clipped, without raising, at negative coordinates.
`renderOk = false` models any of those PIL calls raising after a successful
decode, which lands in the outer `except`. -/

/-- A loaded font: `ImageFont.truetype(path, size)` or the
`ImageFont.load_default()` fallback of the inner `try`. -/
inductive Font where
  | truetype (path : String) (size : ℕ)
  | defaultFont

/-- External rendering facts: the font file situation and PIL's text
metrics/glyph raster, plus whether some drawing call raises. -/
structure WatermarkEnv where
  msjhExists : Bool
  truetypeOk : Bool
  textbbox : String → Font → ℤ × ℤ × ℤ × ℤ
  glyphMask : String → Font → ℤ → ℤ → Bool
  renderOk : Bool

/-- `draw.text((x, y), text, font=font, fill=fill)`: set the pixels under
the glyph mask, clip outside the canvas, never change the dimensions. -/
def drawText (env : WatermarkEnv) (img : Img) (x y : ℤ) (text : String)
    (font : Font) (fill : RGB) : Img :=
  ⟨img.width, img.height, fun px py =>
    if env.glyphMask text font ((px : ℤ) - x) ((py : ℤ) - y) then
      (fill.1, fill.2.1, fill.2.2, 255)
    else
      img.pix px py⟩

/-- The successful body of `_add_watermark` on a decoded image: font choice,
text measurement, bottom-centre placement, four outline draws and the main
draw. -/
def watermarkDraw (env : WatermarkEnv) (img : Img) (text : String) : Img :=
  let font_path := if env.msjhExists then "C:/Windows/Fonts/msjh.ttc"
    else "arial.ttf"
  let font_size := max 16 (⌊(img.height : ℚ) * (25/1000)⌋).toNat
  let font := if env.truetypeOk then Font.truetype font_path font_size
    else Font.defaultFont
  let bbox := env.textbbox text font
  let text_w := bbox.2.2.1 - bbox.1
  let text_h := bbox.2.2.2 - bbox.2.1
  let x := Int.fdiv ((img.width : ℤ) - text_w) 2
  let y := (img.height : ℤ) - text_h - 20
  let outline := ((0 : ℕ), (0 : ℕ), (0 : ℕ))
  let white := ((255 : ℕ), (255 : ℕ), (255 : ℕ))
  let i1 := drawText env img (x - 1) (y - 1) text font outline
  let i2 := drawText env i1 (x + 1) (y - 1) text font outline
  let i3 := drawText env i2 (x - 1) (y + 1) text font outline
  let i4 := drawText env i3 (x + 1) (y + 1) text font outline
  drawText env i4 x y text font white

/-- `AIService._add_watermark`: decode, stamp, re-encode; on any failure
(undecodable bytes, or a raising PIL call) the `except` returns the input
bytes unchanged. -/
def add_watermark (env : WatermarkEnv) (img_bytes : ImageBytes)
    (text : String) : ImageBytes :=
  match img_bytes with
  | none => img_bytes
  | some img =>
    if env.renderOk then
      some (watermarkDraw env img text)
    else
      img_bytes

/-- The default disclaimer text of `_add_watermark`. -/
def defaultWatermarkText : String := "此為試穿效果，並非真實穿著樣貌"

/-! ## Pipeline orchestrator: `AIService.virtual_try_on`

```text
1. Replicate (paid)        — only if a token is configured and method != 'overlay';
                             an exception here is re-raised ("FORCING ERROR
                             for debugging"), a failed URL download leaves
                             final_result_bytes unset.
2. Gradio OOTDiffusion     — only if method != 'overlay' and stage 1 produced
                             nothing; _try_on_gradio re-raises its errors as
                             "VTON Error: ...", or returns None.
3. Fallback: Removed       — if still no result, raise the user-facing
                             generation-failed error.
4. Resize back to the original person dimensions (inside try/except).
5. Add the disclaimer watermark.
```
The network services are oracles: a `StageOutcome` per stage. -/

/-- Outcome of one generative stage: it raised, returned bytes, or returned
nothing usable (falsy result / failed download). -/
inductive StageOutcome where
  | raised (msg : String)
  | produced (b : ImageBytes)
  | noResult

/-- External state of one `virtual_try_on` invocation: the configured
Replicate token, the two generative services' behaviour, and the rendering
environment of the watermark step. -/
structure TryOnEnv where
  replicate_token : Bool
  replicate : StageOutcome
  gradio : StageOutcome
  wm : WatermarkEnv

/-- The user-facing generation-failed message of step 3. -/
def genFailMsg : String := "生成失敗：AI 模型無回應，請稍後再試。"

/-- `res_img.resize((w, h), Image.Resampling.LANCZOS)`: the claims concern
dimensions only; coordinate scaling stands in for the Lanczos filter. -/
def resizeImg (img : Img) (w h : ℕ) : Img :=
  ⟨w, h, fun x y => img.pix (x * img.width / w) (y * img.height / h)⟩

/-- Step 1 of `virtual_try_on`: the Replicate attempt, gated on a token
being configured and `method != 'overlay'`; its `try/except` re-raises any
exception as "Replicate Error: ..." ("FORCING ERROR for debugging"), a
truthy output is downloaded into `final_result_bytes`, anything else leaves
it unset. -/
def replicateStage (env : TryOnEnv) (method : String) :
    Except String (Option ImageBytes) :=
  if env.replicate_token && !(method == "overlay") then
    match env.replicate with
    | .raised m => .error ("Replicate Error: " ++ m)
    | .produced b => .ok (some b)
    | .noResult => .ok none
  else
    .ok none

/-- Step 2 of `virtual_try_on`: the Gradio OOTDiffusion attempt, run only if
`method != 'overlay'` and step 1 produced nothing; `_try_on_gradio`
re-raises its failures as "VTON Error: ..." and returns `None` on an invalid
result path (leaving `final_result_bytes` unset). -/
def gradioStage (env : TryOnEnv) (method : String)
    (fin1 : Option ImageBytes) : Except String (Option ImageBytes) :=
  if !(method == "overlay") && fin1.isNone then
    match env.gradio with
    | .raised m => .error ("VTON Error: " ++ m)
    | .produced b => .ok (some b)
    | .noResult => .ok fin1
  else
    .ok fin1

/-- Steps 4–5 of `virtual_try_on`: resize the result back to the original
person dimensions when they differ (inside a `try/except` that leaves the
bytes unresized if either decode fails), then stamp the disclaimer. -/
def postProcess (env : TryOnEnv) (person_img_bytes result_bytes : ImageBytes) :
    ImageBytes :=
  let resized : ImageBytes :=
    match person_img_bytes, result_bytes with
    | some orig, some res =>
      if res.width = orig.width ∧ res.height = orig.height then result_bytes
      else some (resizeImg res orig.width orig.height)
    | _, _ => result_bytes
  add_watermark env.wm resized defaultWatermarkText

/-- `AIService.virtual_try_on`.  `cloth_img_path`, `cloth_name` and
`category` only feed the external stages; `method` gates them.  Python's
`raise` is `Except.error`.  Step 3 is the source's "Fallback: Removed"
block: with no result left, raise the generation-failed error. -/
def virtual_try_on (env : TryOnEnv) (person_img_bytes : ImageBytes)
    (cloth_img_path cloth_name category method : String) :
    Except String ImageBytes :=
  match replicateStage env method with
  | .error e => .error e
  | .ok fin1 =>
    match gradioStage env method fin1 with
    | .error e => .error e
    | .ok fin2 =>
      match fin2 with
      | none => .error genFailMsg
      | some final_result_bytes =>
        .ok (postProcess env person_img_bytes final_result_bytes)

/-- A 100×200 all-black person photo used by concrete runs. -/
def personTestImg : Img := ⟨100, 200, fun _ _ => (0, 0, 0, 255)⟩

/-- A rendering environment with no font files and failing PIL calls. -/
def wmEnvTest : WatermarkEnv :=
  ⟨false, false, fun _ _ => (0, 0, 0, 0), fun _ _ _ _ => false, false⟩

/-- An invocation in which no generative service is available: no Replicate
token and a Gradio stage that returns no result. -/
def envNoService : TryOnEnv :=
  ⟨false, StageOutcome.noResult, StageOutcome.noResult, wmEnvTest⟩

/-- A 50×60 composite the Gradio stage returns in concrete runs. -/
def resultTestImg : Img := ⟨50, 60, fun _ _ => (1, 2, 3, 255)⟩

/-! ## Landmark-guided compositor (spec §4.3)

The repository's code no longer contains the fallback 2D compositor:
step 3 of `virtual_try_on` reads "3. Fallback: Removed." and raises instead.
The definitions of this section are therefore modelled from the
specification's §4.3 algorithm (with the §3 defaults), not from source
code. -/

/-- Modelled from the spec: normalized body landmark estimates (§3),
missing fields tolerated via the fixed defaults. -/
structure BodyLandmarks where
  torso_center_x : ℚ
  torso_center_y : ℚ
  shoulder_width_ratio : ℚ

/-- Modelled from the spec: the fixed landmark defaults
`center_x=0.5, center_y=0.4, shoulder_width_ratio=0.5` (§3). -/
def defaultLandmarks : BodyLandmarks := ⟨1/2, 2/5, 1/2⟩

/-- Modelled from the spec: the garment-category enumeration (§3). -/
inductive GarmentCategory where
  | UpperBody
  | LowerBody
  | Dress

/-- `is_lower = category == LowerBody` (§4.3 step 3). -/
def isLowerCat : GarmentCategory → Bool
  | .LowerBody => true
  | _ => false

/-- `is_dress = category == Dress` (§4.3 step 3). -/
def isDressCat : GarmentCategory → Bool
  | .Dress => true
  | _ => false

/-- Modelled from the spec: the placement geometry of `compose` (§4.3
steps 3–7) — target garment width `person_width * shoulder_width_ratio *
1.3` for lower-body (non-dress) garments and `... * 1.5` otherwise; height
from an explicit coverage ratio (width recomputed from the garment's own
aspect ratio) or from the chosen width preserving the garment's aspect;
horizontal origin `torso_center_x * person_width - width/2`; vertical
origin `torso_center_y * person_height + person_height * 0.05` for
lower-body (non-dress), else `torso_center_y * person_height - height/3`.
Returns `(width, height, paste_x, paste_y)`. -/
def composeGeometry (personW personH garmentW garmentH : ℕ)
    (lm : BodyLandmarks) (category : GarmentCategory) (coverage : Option ℚ) :
    ℚ × ℚ × ℚ × ℚ :=
  let is_lower := isLowerCat category
  let is_dress := isDressCat category
  let baseW : ℚ :=
    if is_lower && !is_dress then
      (personW : ℚ) * lm.shoulder_width_ratio * (13/10)
    else
      (personW : ℚ) * lm.shoulder_width_ratio * (3/2)
  let wh : ℚ × ℚ :=
    match coverage with
    | some cr =>
      ((personH : ℚ) * cr * ((garmentW : ℚ) / (garmentH : ℚ)),
        (personH : ℚ) * cr)
    | none => (baseW, baseW * ((garmentH : ℚ) / (garmentW : ℚ)))
  let paste_x := lm.torso_center_x * (personW : ℚ) - wh.1 / 2
  let paste_y :=
    if is_lower && !is_dress then
      lm.torso_center_y * (personH : ℚ) + (personH : ℚ) * (1/20)
    else
      lm.torso_center_y * (personH : ℚ) - wh.2 / 3
  (wh.1, wh.2, paste_x, paste_y)

/-- Modelled from the spec: the Background Keyer on a decoded image (§4.2),
the per-pixel rule shared with `_remove_background_simple`. -/
def keyImg (g : Img) : Img :=
  ⟨g.width, g.height, fun x y => keyPixel (g.pix x y)⟩

/-- Modelled from the spec: alpha-masked paste (§4.3 step 8) — pixels of
zero alpha must not overwrite the person layer; the origin may be
negative. -/
def pasteMasked (base im : Img) (ox oy : ℤ) : Img :=
  ⟨base.width, base.height, fun x y =>
    if ox ≤ (x : ℤ) ∧ (x : ℤ) < ox + im.width ∧ oy ≤ (y : ℤ) ∧
        (y : ℤ) < oy + im.height ∧
        (im.pix ((x : ℤ) - ox).toNat ((y : ℤ) - oy).toNat).2.2.2 ≠ 0 then
      im.pix ((x : ℤ) - ox).toNat ((y : ℤ) - oy).toNat
    else
      base.pix x y⟩

/-- Modelled from the spec: `compose(person, garment, landmarks, category,
coverage_ratio?)` (§4.3) — key the garment, resize it to the computed
geometry, alpha-paste it at the (floored) origin, flatten to opaque. -/
def compose (person garment : Img) (lm : BodyLandmarks)
    (category : GarmentCategory) (coverage : Option ℚ) : Img :=
  let geo := composeGeometry person.width person.height garment.width
    garment.height lm category coverage
  let keyed := keyImg garment
  let resized := resizeImg keyed (⌊geo.1⌋).toNat (⌊geo.2.1⌋).toNat
  let composite := pasteMasked person resized ⌊geo.2.2.1⌋ ⌊geo.2.2.2⌋
  ⟨composite.width, composite.height, fun x y =>
    ((composite.pix x y).1, (composite.pix x y).2.1,
      (composite.pix x y).2.2.1, 255)⟩

/-- An invocation in which the Gradio stage produces a decodable 50×60
composite. -/
def envProduced : TryOnEnv :=
  ⟨false, StageOutcome.noResult, StageOutcome.produced (some resultTestImg),
    wmEnvTest⟩

end ClothingApp

open ClothingApp

lemma keyPixel_keyPixel (p : RGBA) : keyPixel (keyPixel p) = keyPixel p := by
  unfold keyPixel
  by_cases h : p.1 > 200 ∧ p.2.1 > 200 ∧ p.2.2.1 > 200
  · simp [h]
  · simp [h]

/-- Unfolding of `ensure_aspect_ratio` on decodable bytes, the three branches
of the source laid out. -/
lemma ensure_aspect_ratio_some (img : Img) (t : ℚ) :
    ensure_aspect_ratio (some img) t =
      if |(img.width : ℚ) / (img.height : ℚ) - t| < 1/100 then some img
      else if (img.width : ℚ) / (img.height : ℚ) < t then
        some ((imageNew (⌊(img.height : ℚ) * t⌋).toNat img.height
          (255, 255, 255)).paste img
          (((⌊(img.height : ℚ) * t⌋).toNat - img.width) / 2) 0)
      else
        some ((imageNew img.width (⌊(img.width : ℚ) / t⌋).toNat
          (255, 255, 255)).paste img 0
          (((⌊(img.width : ℚ) / t⌋).toNat - img.height) / 2)) := rfl

lemma le_foldl_max (l : List ℕ) (a : ℕ) : a ≤ l.foldl max a := by
  induction l generalizing a with
  | nil => exact le_refl a
  | cons x xs ih =>
      exact le_trans (le_max_left a x) (ih (max a x))

lemma foldl_max_lt (l : List ℕ) (a n : ℕ) (ha : a < n)
    (hl : ∀ x ∈ l, x < n) : l.foldl max a < n := by
  induction l generalizing a with
  | nil => exact ha
  | cons x xs ih =>
      refine ih (max a x) (max_lt ha (hl x (List.mem_cons_self x xs))) ?_
      exact fun y hy => hl y (List.mem_cons_of_mem x hy)

/-- **C5.** `_remove_background_simple` maps each pixel whose three colour
channels all exceed 200 to fully transparent white `(255,255,255,0)` and
leaves every other pixel unchanged, including its existing alpha; the output
is RGBA pixel data (alpha channel present by type), of the same length. -/
theorem C5_remove_background_pixelwise (datas : List RGBA) (i : ℕ)
    (h : i < datas.length) :
    (remove_background_simple datas).length = datas.length ∧
    (remove_background_simple datas).get
        ⟨i, by simpa [remove_background_simple] using h⟩ =
      (if (datas.get ⟨i, h⟩).1 > 200 ∧ (datas.get ⟨i, h⟩).2.1 > 200 ∧
          (datas.get ⟨i, h⟩).2.2.1 > 200 then
        ((255 : ℕ), (255 : ℕ), (255 : ℕ), (0 : ℕ))
      else datas.get ⟨i, h⟩) := by
  refine ⟨by simp [remove_background_simple], ?_⟩
  simp [remove_background_simple, keyPixel]

/-- Witness for C5: on the two-pixel list `[(210,220,230,7), (10,20,30,40)]`
the first pixel (all channels above 200) is keyed to transparent white and the
second passes through with its alpha 40 intact. -/
theorem C5_remove_background_pixelwise_witness :
    (0 < ([((210 : ℕ), (220 : ℕ), (230 : ℕ), (7 : ℕ)),
          ((10 : ℕ), (20 : ℕ), (30 : ℕ), (40 : ℕ))] : List RGBA).length) ∧
    (remove_background_simple
        [((210 : ℕ), (220 : ℕ), (230 : ℕ), (7 : ℕ)),
         ((10 : ℕ), (20 : ℕ), (30 : ℕ), (40 : ℕ))] =
      [(255, 255, 255, 0), (10, 20, 30, 40)]) := by
  refine ⟨by decide, ?_⟩
  have h1 := C5_remove_background_pixelwise
    [((210 : ℕ), (220 : ℕ), (230 : ℕ), (7 : ℕ)),
     ((10 : ℕ), (20 : ℕ), (30 : ℕ), (40 : ℕ))] 0 (by decide)
  have h2 := C5_remove_background_pixelwise
    [((210 : ℕ), (220 : ℕ), (230 : ℕ), (7 : ℕ)),
     ((10 : ℕ), (20 : ℕ), (30 : ℕ), (40 : ℕ))] 1 (by decide)
  decide

/-- **C4 counterexample.** The claim "for every decodable input image,
`_ensure_aspect_ratio` output satisfies `|w/h - target_ratio| <= 0.01`" fails
at the 1×10 image with the default target `3/4`: the padded output is 7×10
(`int(10 * 0.75) = 7`), whose ratio `0.7` misses `0.75` by `0.05 > 0.01`. -/
theorem C4_ratio_claim_counterexample :
    bytesWidth (ensure_aspect_ratio (some tallTestImg) (3/4)) = some 7 ∧
    bytesHeight (ensure_aspect_ratio (some tallTestImg) (3/4)) = some 10 ∧
    ¬ (|(7 : ℚ) / 10 - 3/4| ≤ 1/100) := by
  have hclose : ¬ (|((tallTestImg.width : ℚ)) / ((tallTestImg.height : ℚ)) -
      3/4| < 1/100) := by
    rw [show ((tallTestImg.width : ℚ)) / ((tallTestImg.height : ℚ)) - 3/4 =
      -(13/20) by norm_num [tallTestImg], abs_neg, abs_of_pos (by norm_num)]
    norm_num
  have hnarrow : ((tallTestImg.width : ℚ)) / ((tallTestImg.height : ℚ)) < 3/4 := by
    norm_num [tallTestImg]
  have hfloor : ⌊((tallTestImg.height : ℚ)) * (3/4)⌋ = 7 := by
    rw [show ((tallTestImg.height : ℚ)) = 10 by norm_num [tallTestImg],
      Int.floor_eq_iff]
    norm_num
  refine ⟨?_, ?_, by rw [abs_of_neg (by norm_num)]; norm_num⟩
  · rw [bytesWidth, ensure_aspect_ratio_some, if_neg hclose, if_pos hnarrow]
    simp [imageNew, Img.paste, hfloor]
  · rw [bytesHeight, ensure_aspect_ratio_some, if_neg hclose, if_pos hnarrow]
    simp [imageNew, Img.paste, tallTestImg]

/-- **C4 (amended).** For every decodable image with positive dimensions and
target ratio `0 < t ≤ 1`, `_ensure_aspect_ratio` never crops (output
dimensions are `>=` input dimensions) and the output ratio misses the target
by less than `max(0.01, 1/input_height)` — within integer rounding of the
padded dimension, not within the unconditional `0.01` the claim states. -/
theorem C4_pad_to_aspect_ratio_amended (img : Img) (t : ℚ)
    (hw : 0 < img.width) (hh : 0 < img.height) (ht0 : 0 < t) (ht1 : t ≤ 1) :
    ∃ o : Img, ensure_aspect_ratio (some img) t = some o ∧
      img.width ≤ o.width ∧ img.height ≤ o.height ∧
      (|(o.width : ℚ) / (o.height : ℚ) - t| < 1/100 ∨
        |(o.width : ℚ) / (o.height : ℚ) - t| < 1 / (img.height : ℚ)) := by
  have hhQ : (0 : ℚ) < (img.height : ℚ) := by exact_mod_cast hh
  have hwQ : (0 : ℚ) < (img.width : ℚ) := by exact_mod_cast hw
  by_cases hclose : |((img.width : ℚ) / (img.height : ℚ)) - t| < 1/100
  · refine ⟨img, ?_, le_refl _, le_refl _, Or.inl hclose⟩
    rw [ensure_aspect_ratio_some, if_pos hclose]
  · by_cases hnarrow : ((img.width : ℚ) / (img.height : ℚ)) < t
    · -- too narrow: white padding is added left and right
      have hwt : (img.width : ℚ) < t * (img.height : ℚ) :=
        (div_lt_iff₀ hhQ).mp hnarrow
      have hm0 : 0 ≤ ⌊(img.height : ℚ) * t⌋ :=
        Int.floor_nonneg.mpr (by positivity)
      have hwm : (img.width : ℤ) ≤ ⌊(img.height : ℚ) * t⌋ :=
        Int.le_floor.mpr (by push_cast; linarith [mul_comm t ((img.height : ℚ))])
      refine ⟨(imageNew (⌊(img.height : ℚ) * t⌋).toNat img.height
          (255, 255, 255)).paste img
          (((⌊(img.height : ℚ) * t⌋).toNat - img.width) / 2) 0, ?_, ?_,
          le_refl _, Or.inr ?_⟩
      · rw [ensure_aspect_ratio_some, if_neg hclose, if_pos hnarrow]
      · show img.width ≤ (⌊(img.height : ℚ) * t⌋).toNat
        omega
      · show |(((⌊(img.height : ℚ) * t⌋).toNat : ℕ) : ℚ) / (img.height : ℚ) - t| <
          1 / (img.height : ℚ)
        have hcast : (((⌊(img.height : ℚ) * t⌋).toNat : ℕ) : ℚ) =
            ((⌊(img.height : ℚ) * t⌋ : ℤ) : ℚ) := by
          exact_mod_cast congrArg (Int.cast : ℤ → ℚ) (Int.toNat_of_nonneg hm0)
        rw [hcast]
        have hfl1 : ((⌊(img.height : ℚ) * t⌋ : ℤ) : ℚ) ≤ (img.height : ℚ) * t :=
          Int.floor_le _
        have hfl2 : (img.height : ℚ) * t - 1 <
            ((⌊(img.height : ℚ) * t⌋ : ℤ) : ℚ) := Int.sub_one_lt_floor _
        have hb1 : ((⌊(img.height : ℚ) * t⌋ : ℤ) : ℚ) / (img.height : ℚ) ≤ t :=
          (div_le_iff₀ hhQ).mpr (by linarith [mul_comm t ((img.height : ℚ))])
        rw [abs_sub_lt_iff]
        refine ⟨by linarith [one_div_pos.mpr hhQ], ?_⟩
        have hrw : t - ((⌊(img.height : ℚ) * t⌋ : ℤ) : ℚ) / (img.height : ℚ) =
            (t * (img.height : ℚ) - ((⌊(img.height : ℚ) * t⌋ : ℤ) : ℚ)) /
              (img.height : ℚ) := by
          field_simp
        have key : t * (img.height : ℚ) - ((⌊(img.height : ℚ) * t⌋ : ℤ) : ℚ) < 1 := by
          linarith [mul_comm t ((img.height : ℚ))]
        rw [hrw, div_lt_div_iff_of_pos_right hhQ]
        exact key
    · -- too wide: white padding is added top and bottom
      have hth : t ≤ (img.width : ℚ) / (img.height : ℚ) := not_lt.mp hnarrow
      have htw : t * (img.height : ℚ) ≤ (img.width : ℚ) := (le_div_iff₀ hhQ).mp hth
      have hn0 : 0 ≤ ⌊(img.width : ℚ) / t⌋ := Int.floor_nonneg.mpr (by positivity)
      have hhn : (img.height : ℤ) ≤ ⌊(img.width : ℚ) / t⌋ :=
        Int.le_floor.mpr (by
          push_cast
          rw [le_div_iff₀ ht0]
          linarith [mul_comm t ((img.height : ℚ))])
      refine ⟨(imageNew img.width (⌊(img.width : ℚ) / t⌋).toNat
          (255, 255, 255)).paste img 0
          (((⌊(img.width : ℚ) / t⌋).toNat - img.height) / 2), ?_, le_refl _, ?_,
          Or.inr ?_⟩
      · rw [ensure_aspect_ratio_some, if_neg hclose, if_neg hnarrow]
      · show img.height ≤ (⌊(img.width : ℚ) / t⌋).toNat
        omega
      · show |(img.width : ℚ) / ((((⌊(img.width : ℚ) / t⌋).toNat : ℕ)) : ℚ) - t| <
          1 / (img.height : ℚ)
        have hcast : ((((⌊(img.width : ℚ) / t⌋).toNat : ℕ)) : ℚ) =
            ((⌊(img.width : ℚ) / t⌋ : ℤ) : ℚ) := by
          exact_mod_cast congrArg (Int.cast : ℤ → ℚ) (Int.toNat_of_nonneg hn0)
        rw [hcast]
        have hhn2 : (img.height : ℚ) ≤ ((⌊(img.width : ℚ) / t⌋ : ℤ) : ℚ) := by
          exact_mod_cast hhn
        have hnp : (0 : ℚ) < ((⌊(img.width : ℚ) / t⌋ : ℤ) : ℚ) :=
          lt_of_lt_of_le hhQ hhn2
        have hfl1 : ((⌊(img.width : ℚ) / t⌋ : ℤ) : ℚ) ≤ (img.width : ℚ) / t :=
          Int.floor_le _
        have hfl2 : (img.width : ℚ) / t - 1 < ((⌊(img.width : ℚ) / t⌋ : ℤ) : ℚ) :=
          Int.sub_one_lt_floor _
        have hnt : ((⌊(img.width : ℚ) / t⌋ : ℤ) : ℚ) * t ≤ (img.width : ℚ) := by
          calc ((⌊(img.width : ℚ) / t⌋ : ℤ) : ℚ) * t
              ≤ ((img.width : ℚ) / t) * t :=
                mul_le_mul_of_nonneg_right hfl1 (le_of_lt ht0)
            _ = (img.width : ℚ) := by field_simp
        have hub : (img.width : ℚ) < (((⌊(img.width : ℚ) / t⌋ : ℤ) : ℚ) + 1) * t := by
          have h1 : (img.width : ℚ) / t < ((⌊(img.width : ℚ) / t⌋ : ℤ) : ℚ) + 1 := by
            linarith
          calc (img.width : ℚ) = ((img.width : ℚ) / t) * t := by field_simp
            _ < (((⌊(img.width : ℚ) / t⌋ : ℤ) : ℚ) + 1) * t :=
                mul_lt_mul_of_pos_right h1 ht0
        rw [abs_sub_lt_iff]
        constructor
        · have hrw : (img.width : ℚ) / ((⌊(img.width : ℚ) / t⌋ : ℤ) : ℚ) - t =
              ((img.width : ℚ) - t * ((⌊(img.width : ℚ) / t⌋ : ℤ) : ℚ)) /
                ((⌊(img.width : ℚ) / t⌋ : ℤ) : ℚ) := by
            field_simp
            ring
          rw [hrw, div_lt_div_iff hnp hhQ]
          nlinarith [mul_le_mul_of_nonneg_right ht1 (le_of_lt hhQ)]
        · have hwn : t ≤ (img.width : ℚ) / ((⌊(img.width : ℚ) / t⌋ : ℤ) : ℚ) :=
            (le_div_iff₀ hnp).mpr (by rw [mul_comm]; exact hnt)
          linarith [one_div_pos.mpr hhQ]

/-- Witness for C4's amended statement at the concrete 1×10 image with the
default target `0.75`. -/
theorem C4_pad_to_aspect_ratio_amended_witness :
    (0 < tallTestImg.width) ∧ (0 < tallTestImg.height) ∧
    ((0 : ℚ) < 3/4) ∧ ((3/4 : ℚ) ≤ 1) ∧
    (∃ o : Img, ensure_aspect_ratio (some tallTestImg) (3/4) = some o ∧
      tallTestImg.width ≤ o.width ∧ tallTestImg.height ≤ o.height ∧
      (|(o.width : ℚ) / (o.height : ℚ) - 3/4| < 1/100 ∨
        |(o.width : ℚ) / (o.height : ℚ) - 3/4| <
          1 / (tallTestImg.height : ℚ))) :=
  ⟨by decide, by decide, by norm_num, by norm_num,
    C4_pad_to_aspect_ratio_amended tallTestImg (3/4) (by decide) (by decide)
      (by norm_num) (by norm_num)⟩

/-- **C10.** `_ensure_aspect_ratio` never raises (it is a total function of
its input): in particular, when the input bytes cannot be decoded as an image
(`Image.open` raises inside the `try`), the `except` branch returns the input
bytes unchanged instead of propagating the decode error. -/
theorem C10_ensure_aspect_ratio_undecodable_passthrough (b : ImageBytes)
    (t : ℚ) (h : b.isSome = false) : ensure_aspect_ratio b t = b := by
  cases b with
  | none => rfl
  | some img => simp at h

/-- Witness for C10: undecodable bytes with the default target ratio `0.75`
come back unchanged. -/
theorem C10_ensure_aspect_ratio_undecodable_passthrough_witness :
    (none : ImageBytes).isSome = false ∧
    ensure_aspect_ratio (none : ImageBytes) (3/4) = none :=
  ⟨rfl, C10_ensure_aspect_ratio_undecodable_passthrough none (3/4) rfl⟩

/-- **C6.** The background keyer is idempotent: applying
`_remove_background_simple` twice yields the same pixel data as applying it
once (a keyed pixel `(255,255,255,0)` satisfies the brightness test again and
is re-mapped to itself; an unkeyed pixel still fails the test). -/
theorem C6_remove_background_idempotent (datas : List RGBA) :
    remove_background_simple (remove_background_simple datas) =
      remove_background_simple datas := by
  unfold remove_background_simple
  rw [List.map_map]
  exact List.map_congr_left (fun p _ => keyPixel_keyPixel p)

/-- **C7.** `trim` on an image all of whose pixels equal the pixel at (0,0)
returns the image unchanged; and on every non-degenerate input (positive
height and width, rectangular rows) `trim` never produces a zero-area image:
the output has at least one row and every output row is nonempty. -/
theorem C7_trim_uniform_unchanged_never_zero (im : RGBImage)
    (hh : 0 < im.height) (hw : 0 < im.width)
    (hrect : ∀ row ∈ im.rows, row.length = im.width) :
    ((∀ row ∈ im.rows, ∀ p ∈ row, p = im.getpixel00) → trim im = im) ∧
    (0 < (trim im).height ∧ ∀ row ∈ (trim im).rows, 0 < row.length) := by
  constructor
  · intro huni
    have hdiffers : ∀ row ∈ im.rows, ∀ p ∈ row,
        pixelDiffers p im.getpixel00 = false := by
      intro row hrow p hp
      rw [huni row hrow p hp]
      simp [pixelDiffers, Nat.dist_self]
    have hrows : differingRows im = [] := by
      rw [List.eq_nil_iff_forall_not_mem]
      intro r hr
      rw [differingRows, List.mem_filter, List.mem_range] at hr
      obtain ⟨hrange, hany⟩ := hr
      have hmem : im.rows.getD r [] ∈ im.rows := by
        rw [List.getD_eq_getElem?_getD, List.getElem?_eq_getElem hrange]
        exact List.getElem_mem hrange
      obtain ⟨p, hp, hpd⟩ := List.any_eq_true.mp hany
      rw [hdiffers _ hmem p hp] at hpd
      exact Bool.false_ne_true hpd
    have hbb : getbbox im = none := by
      unfold getbbox
      rw [hrows]
      cases differingCols im <;> rfl
    unfold trim
    rw [hbb]
  · rcases hcols : differingCols im with _ | ⟨c0, cs⟩ <;>
      rcases hrows : differingRows im with _ | ⟨r0, rs⟩
    case nil.nil =>
      have hbb : getbbox im = none := by unfold getbbox; rw [hcols, hrows]
      unfold trim
      rw [hbb]
      exact ⟨hh, fun row hrow => by rw [hrect row hrow]; exact hw⟩
    case nil.cons =>
      have hbb : getbbox im = none := by unfold getbbox; rw [hcols, hrows]
      unfold trim
      rw [hbb]
      exact ⟨hh, fun row hrow => by rw [hrect row hrow]; exact hw⟩
    case cons.nil =>
      have hbb : getbbox im = none := by unfold getbbox; rw [hcols, hrows]
      unfold trim
      rw [hbb]
      exact ⟨hh, fun row hrow => by rw [hrect row hrow]; exact hw⟩
    case cons.cons =>
      have hbb : getbbox im =
          some (c0, r0, cs.foldl max c0 + 1, rs.foldl max r0 + 1) := by
        unfold getbbox
        rw [hcols, hrows]
      have htrim : trim im =
          im.crop (c0, r0, cs.foldl max c0 + 1, rs.foldl max r0 + 1) := by
        unfold trim
        rw [hbb]
      have hr0 : r0 < im.height := by
        have hmem : r0 ∈ differingRows im := by
          rw [hrows]; exact List.mem_cons_self _ _
        rw [differingRows, List.mem_filter, List.mem_range] at hmem
        exact hmem.1
      have hrslt : ∀ x ∈ rs, x < im.height := by
        intro x hx
        have hmem : x ∈ differingRows im := by
          rw [hrows]; exact List.mem_cons_of_mem _ hx
        rw [differingRows, List.mem_filter, List.mem_range] at hmem
        exact hmem.1
      have hc0 : c0 < im.width := by
        have hmem : c0 ∈ differingCols im := by
          rw [hcols]; exact List.mem_cons_self _ _
        rw [differingCols, List.mem_filter, List.mem_range] at hmem
        exact hmem.1
      have hmaxr : rs.foldl max r0 < im.height := foldl_max_lt rs r0 _ hr0 hrslt
      have hler : r0 ≤ rs.foldl max r0 := le_foldl_max rs r0
      have hlec : c0 ≤ cs.foldl max c0 := le_foldl_max cs c0
      have hlenrows : im.rows.length = im.height := rfl
      rw [htrim]
      constructor
      · show 0 < (List.map _ ((im.rows.drop r0).take (rs.foldl max r0 + 1 - r0))).length
        rw [List.length_map, List.length_take, List.length_drop]
        refine lt_min ?_ ?_ <;> omega
      · intro row hrow
        obtain ⟨row0, hrow0mem, hrow0eq⟩ := List.mem_map.mp hrow
        have hrow0 : row0 ∈ im.rows :=
          List.drop_subset _ _ (List.take_subset _ _ hrow0mem)
        have hlen : row0.length = im.width := hrect row0 hrow0
        rw [← hrow0eq]
        show 0 < ((row0.drop c0).take (cs.foldl max c0 + 1 - c0)).length
        rw [List.length_take, List.length_drop, hlen]
        refine lt_min ?_ ?_ <;> omega

/-- Witness for C7: a uniform 2×2 white image with rectangular rows; `trim`
leaves it unchanged and its trimmed form has no zero dimension. -/
theorem C7_trim_uniform_unchanged_never_zero_witness :
    (0 < (RGBImage.mk [[(255, 255, 255), (255, 255, 255)],
        [(255, 255, 255), (255, 255, 255)]]).height) ∧
    (0 < (RGBImage.mk [[(255, 255, 255), (255, 255, 255)],
        [(255, 255, 255), (255, 255, 255)]]).width) ∧
    (∀ row ∈ (RGBImage.mk [[(255, 255, 255), (255, 255, 255)],
        [(255, 255, 255), (255, 255, 255)]]).rows,
      row.length = (RGBImage.mk [[(255, 255, 255), (255, 255, 255)],
        [(255, 255, 255), (255, 255, 255)]]).width) ∧
    (((∀ row ∈ (RGBImage.mk [[(255, 255, 255), (255, 255, 255)],
        [(255, 255, 255), (255, 255, 255)]]).rows, ∀ p ∈ row,
        p = (RGBImage.mk [[(255, 255, 255), (255, 255, 255)],
          [(255, 255, 255), (255, 255, 255)]]).getpixel00) →
      trim (RGBImage.mk [[(255, 255, 255), (255, 255, 255)],
        [(255, 255, 255), (255, 255, 255)]]) =
        RGBImage.mk [[(255, 255, 255), (255, 255, 255)],
          [(255, 255, 255), (255, 255, 255)]]) ∧
     (0 < (trim (RGBImage.mk [[(255, 255, 255), (255, 255, 255)],
          [(255, 255, 255), (255, 255, 255)]])).height ∧
      ∀ row ∈ (trim (RGBImage.mk [[(255, 255, 255), (255, 255, 255)],
          [(255, 255, 255), (255, 255, 255)]])).rows, 0 < row.length)) :=
  ⟨by decide, by decide, by decide,
    C7_trim_uniform_unchanged_never_zero _ (by decide) (by decide) (by decide)⟩

lemma watermarkDraw_width (env : WatermarkEnv) (img : Img) (t : String) :
    (watermarkDraw env img t).width = img.width := rfl

lemma watermarkDraw_height (env : WatermarkEnv) (img : Img) (t : String) :
    (watermarkDraw env img t).height = img.height := rfl

lemma add_watermark_dims (env : WatermarkEnv) (r o : Img) (t : String)
    (h : add_watermark env (some r) t = some o) :
    o.width = r.width ∧ o.height = r.height := by
  simp only [add_watermark] at h
  by_cases hr : env.renderOk
  · rw [if_pos hr] at h
    rw [← Option.some.inj h]
    exact ⟨watermarkDraw_width env r t, watermarkDraw_height env r t⟩
  · rw [if_neg hr] at h
    rw [← Option.some.inj h]
    exact ⟨rfl, rfl⟩

/-- **C8.** `_add_watermark` never raises: for every input bytes (a 1×1
image included) and every text and rendering environment, it returns either
the stamped image — of unchanged dimensions — or the input bytes
unchanged. -/
theorem C8_add_watermark_never_raises (env : WatermarkEnv) (b : ImageBytes)
    (text : String) :
    add_watermark env b text = b ∨
    ∃ img out, b = some img ∧ add_watermark env b text = some out ∧
      out.width = img.width ∧ out.height = img.height := by
  cases b with
  | none => exact Or.inl rfl
  | some img =>
    by_cases h : env.renderOk
    · refine Or.inr ⟨img, watermarkDraw env img text, rfl, ?_, rfl, rfl⟩
      simp [add_watermark, h]
    · exact Or.inl (by simp [add_watermark, h])

lemma bool_gate_replicate (env : TryOnEnv) (method : String)
    (hc : (env.replicate_token && !(method == "overlay")) = true) :
    env.replicate_token = true ∧ method ≠ "overlay" := by
  rw [Bool.and_eq_true] at hc
  refine ⟨hc.1, ?_⟩
  have h2 := hc.2
  rw [Bool.not_eq_true'] at h2
  exact fun h => by rw [h] at h2; simp at h2

lemma replicateStage_not_produced (env : TryOnEnv) (method : String)
    (hr : env.replicate_token = true → method ≠ "overlay" →
      ∀ b, env.replicate ≠ .produced b) :
    replicateStage env method = .ok none ∨
      ∃ e, replicateStage env method = .error e := by
  unfold replicateStage
  by_cases hc : (env.replicate_token && !(method == "overlay")) = true
  · obtain ⟨htok, hnov⟩ := bool_gate_replicate env method hc
    rw [if_pos hc]
    cases hrep : env.replicate with
    | raised m => exact Or.inr ⟨_, rfl⟩
    | produced b0 => exact absurd hrep (hr htok hnov b0)
    | noResult => exact Or.inl rfl
  · rw [if_neg hc]
    exact Or.inl rfl

lemma replicateStage_clean (env : TryOnEnv) (method : String)
    (hr : env.replicate_token = true → method ≠ "overlay" →
      ∀ b, env.replicate ≠ .produced b)
    (hm : env.replicate_token = true → method ≠ "overlay" →
      ∀ m, env.replicate ≠ .raised m) :
    replicateStage env method = .ok none := by
  unfold replicateStage
  by_cases hc : (env.replicate_token && !(method == "overlay")) = true
  · obtain ⟨htok, hnov⟩ := bool_gate_replicate env method hc
    rw [if_pos hc]
    cases hrep : env.replicate with
    | raised m => exact absurd hrep (hm htok hnov m)
    | produced b0 => exact absurd hrep (hr htok hnov b0)
    | noResult => rfl
  · rw [if_neg hc]

lemma bool_gate_gradio (method : String)
    (hc : (!(method == "overlay") && (none : Option ImageBytes).isNone) = true) :
    method ≠ "overlay" := by
  rw [Bool.and_eq_true] at hc
  have h2 := hc.1
  rw [Bool.not_eq_true'] at h2
  exact fun h => by rw [h] at h2; simp at h2

lemma gradioStage_not_produced (env : TryOnEnv) (method : String)
    (hg : method ≠ "overlay" → ∀ b, env.gradio ≠ .produced b) :
    gradioStage env method none = .ok none ∨
      ∃ e, gradioStage env method none = .error e := by
  unfold gradioStage
  by_cases hc : (!(method == "overlay") && (none : Option ImageBytes).isNone) = true
  · have hnov := bool_gate_gradio method hc
    rw [if_pos hc]
    cases hgra : env.gradio with
    | raised m => exact Or.inr ⟨_, rfl⟩
    | produced b0 => exact absurd hgra (hg hnov b0)
    | noResult => exact Or.inl rfl
  · rw [if_neg hc]
    exact Or.inl rfl

lemma gradioStage_clean (env : TryOnEnv) (method : String)
    (hg : method ≠ "overlay" → ∀ b, env.gradio ≠ .produced b)
    (hm : method ≠ "overlay" → ∀ m, env.gradio ≠ .raised m) :
    gradioStage env method none = .ok none := by
  unfold gradioStage
  by_cases hc : (!(method == "overlay") && (none : Option ImageBytes).isNone) = true
  · have hnov := bool_gate_gradio method hc
    rw [if_pos hc]
    cases hgra : env.gradio with
    | raised m => exact absurd hgra (hm hnov m)
    | produced b0 => exact absurd hgra (hg hnov b0)
    | noResult => rfl
  · rw [if_neg hc]

/-- **C2.** When no stage produces an image (each generative stage, if it
runs at all under the invocation's gating, raises or yields nothing), the
orchestrator never returns `ok` — in particular it never returns the
unmodified person photo — and when the stages completed without raising it
raises exactly the user-facing generation-failed error. -/
theorem C2_no_result_raises_generation_failed (env : TryOnEnv)
    (person : ImageBytes) (cp cn cat method : String)
    (hr : env.replicate_token = true → method ≠ "overlay" →
      ∀ b, env.replicate ≠ .produced b)
    (hg : method ≠ "overlay" → ∀ b, env.gradio ≠ .produced b) :
    (∀ b, virtual_try_on env person cp cn cat method ≠ .ok b) ∧
    ((env.replicate_token = true → method ≠ "overlay" →
        ∀ m, env.replicate ≠ .raised m) →
      (method ≠ "overlay" → ∀ m, env.gradio ≠ .raised m) →
      virtual_try_on env person cp cn cat method = .error genFailMsg) := by
  constructor
  · intro b hb
    unfold virtual_try_on at hb
    rcases replicateStage_not_produced env method hr with h1 | ⟨e, h1⟩
    · rw [h1] at hb
      simp only [] at hb
      rcases gradioStage_not_produced env method hg with h2 | ⟨e, h2⟩
      · rw [h2] at hb
        simp at hb
      · rw [h2] at hb
        simp at hb
    · rw [h1] at hb
      simp at hb
  · intro hmr hmg
    unfold virtual_try_on
    rw [replicateStage_clean env method hr hmr]
    simp only []
    rw [gradioStage_clean env method hg hmg]

/-- Witness for C2: with no Replicate token and a Gradio stage that returns
no result, the concrete run returns no `ok` and raises exactly the
generation-failed error. -/
theorem C2_no_result_raises_generation_failed_witness :
    ((∀ b, virtual_try_on envNoService (some personTestImg) "c.jpg" "shirt"
        "Upper-body" "auto" ≠ .ok b) ∧
     ((envNoService.replicate_token = true → "auto" ≠ "overlay" →
         ∀ m, envNoService.replicate ≠ .raised m) →
       ("auto" ≠ "overlay" → ∀ m, envNoService.gradio ≠ .raised m) →
       virtual_try_on envNoService (some personTestImg) "c.jpg" "shirt"
         "Upper-body" "auto" = .error genFailMsg)) :=
  C2_no_result_raises_generation_failed envNoService (some personTestImg)
    "c.jpg" "shirt" "Upper-body" "auto"
    (fun _ _ b h => by simp [envNoService] at h)
    (fun _ b h => by simp [envNoService] at h)

/-- **C1 counterexample.** A run in which the generative stages produce no
result and the caller has `method = "auto"` (fallback routing not disabled):
the orchestrator raises the generation-failed error instead of invoking any
fallback 2D compositor — the overlay fallback is removed from the code
("3. Fallback: Removed"). -/
theorem C1_fallback_claim_counterexample :
    virtual_try_on envNoService (some personTestImg) "c.jpg" "shirt"
      "Upper-body" "auto" = .error genFailMsg := by
  rfl

/-- **C1 (amended).** When the generative try-on stage fails or produces no
result (and no paid stage is configured), the orchestrator does not route to
any fallback compositor: it raises — the generation-failed error when the
stage returned nothing, and the propagated "VTON Error" when the stage
raised. -/
theorem C1_generative_failure_raises_amended (env : TryOnEnv)
    (person : ImageBytes) (cp cn cat method : String)
    (hm : method ≠ "overlay") (ht : env.replicate_token = false) :
    (env.gradio = .noResult →
      virtual_try_on env person cp cn cat method = .error genFailMsg) ∧
    (∀ m, env.gradio = .raised m →
      virtual_try_on env person cp cn cat method =
        .error ("VTON Error: " ++ m)) := by
  have h1 : replicateStage env method = .ok none := by
    simp [replicateStage, ht]
  have hbeq : (method == "overlay") = false := by
    simp [hm]
  constructor
  · intro hg
    unfold virtual_try_on
    rw [h1]
    simp only []
    have h2 : gradioStage env method none = .ok none := by
      simp [gradioStage, hbeq, hg]
    rw [h2]
  · intro m hg
    unfold virtual_try_on
    rw [h1]
    simp only []
    have h2 : gradioStage env method none = .error ("VTON Error: " ++ m) := by
      simp [gradioStage, hbeq, hg]
    rw [h2]

/-- Witness for C1's amended statement at the concrete no-service run. -/
theorem C1_generative_failure_raises_amended_witness :
    ("auto" ≠ "overlay") ∧ (envNoService.replicate_token = false) ∧
    ((envNoService.gradio = .noResult →
      virtual_try_on envNoService (some personTestImg) "c.jpg" "shirt"
        "Upper-body" "auto" = .error genFailMsg) ∧
     (∀ m, envNoService.gradio = .raised m →
      virtual_try_on envNoService (some personTestImg) "c.jpg" "shirt"
        "Upper-body" "auto" = .error ("VTON Error: " ++ m))) :=
  ⟨by decide, rfl,
    C1_generative_failure_raises_amended envNoService (some personTestImg)
      "c.jpg" "shirt" "Upper-body" "auto" (by decide) rfl⟩

lemma replicateStage_ok_some (env : TryOnEnv) (method : String)
    (b : ImageBytes) (h : replicateStage env method = .ok (some b)) :
    env.replicate = .produced b := by
  unfold replicateStage at h
  by_cases hc : (env.replicate_token && !(method == "overlay")) = true
  · rw [if_pos hc] at h
    cases hrep : env.replicate with
    | raised m => rw [hrep] at h; simp at h
    | produced b0 => rw [hrep] at h; simp at h; rw [h]
    | noResult => rw [hrep] at h; simp at h
  · rw [if_neg hc] at h
    simp at h

lemma gradioStage_ok_some (env : TryOnEnv) (method : String)
    (fin1 : Option ImageBytes) (b : ImageBytes)
    (h : gradioStage env method fin1 = .ok (some b)) :
    fin1 = some b ∨ env.gradio = .produced b := by
  unfold gradioStage at h
  by_cases hc : (!(method == "overlay") && fin1.isNone) = true
  · rw [if_pos hc] at h
    cases hgra : env.gradio with
    | raised m => rw [hgra] at h; simp at h
    | produced b0 => rw [hgra] at h; simp at h; exact Or.inr (by rw [h])
    | noResult => rw [hgra] at h; simp at h; exact Or.inl h
  · rw [if_neg hc] at h
    simp at h
    exact Or.inl h

lemma postProcess_some (env : TryOnEnv) (orig res : Img) :
    postProcess env (some orig) (some res) =
      add_watermark env.wm
        (if res.width = orig.width ∧ res.height = orig.height then some res
         else some (resizeImg res orig.width orig.height))
        defaultWatermarkText := rfl

/-- **C9.** In every successful pipeline run whose produced bytes decode,
the post-processing first resizes the produced result to exactly the
original person image's dimensions and only then applies the disclaimer
stamp: the returned value is the watermark applied to an image of exactly
the person's width and height, and the final image (when it decodes) has
exactly those dimensions. -/
theorem C9_resize_to_original_before_stamp (env : TryOnEnv) (p : Img)
    (cp cn cat method : String) (out : ImageBytes)
    (hdec : ∀ b, (env.replicate = .produced b ∨ env.gradio = .produced b) →
      b.isSome = true)
    (hrun : virtual_try_on env (some p) cp cn cat method = .ok out) :
    ∃ r : Img, r.width = p.width ∧ r.height = p.height ∧
      out = add_watermark env.wm (some r) defaultWatermarkText ∧
      ∀ o : Img, out = some o → o.width = p.width ∧ o.height = p.height := by
  unfold virtual_try_on at hrun
  cases h1 : replicateStage env method with
  | error e => rw [h1] at hrun; simp at hrun
  | ok fin1 =>
    rw [h1] at hrun
    simp only [] at hrun
    cases h2 : gradioStage env method fin1 with
    | error e => rw [h2] at hrun; simp at hrun
    | ok fin2 =>
      rw [h2] at hrun
      simp only [] at hrun
      cases fin2 with
      | none => simp at hrun
      | some rb =>
        simp only [] at hrun
        have hprod : env.replicate = .produced rb ∨ env.gradio = .produced rb := by
          rcases gradioStage_ok_some env method fin1 rb h2 with hfin | hgra
          · rw [hfin] at h1
            exact Or.inl (replicateStage_ok_some env method rb h1)
          · exact Or.inr hgra
        have hsome : rb.isSome = true := hdec rb hprod
        cases rb with
        | none => simp at hsome
        | some r =>
          replace hrun := Except.ok.inj hrun
          rw [postProcess_some] at hrun
          by_cases hdim : r.width = p.width ∧ r.height = p.height
          · rw [if_pos hdim] at hrun
            refine ⟨r, hdim.1, hdim.2, hrun.symm, ?_⟩
            intro o ho
            rw [← hrun] at ho
            have hd := add_watermark_dims env.wm r o defaultWatermarkText ho
            exact ⟨hd.1.trans hdim.1, hd.2.trans hdim.2⟩
          · rw [if_neg hdim] at hrun
            refine ⟨resizeImg r p.width p.height, rfl, rfl, hrun.symm, ?_⟩
            intro o ho
            rw [← hrun] at ho
            have hd := add_watermark_dims env.wm (resizeImg r p.width p.height)
              o defaultWatermarkText ho
            exact hd

/-- Witness for C9: a run in which the Gradio stage produces a decodable
50×60 composite while the person photo is 100×200; the hypotheses hold and
the conclusion is obtained from the theorem itself. -/
theorem C9_resize_to_original_before_stamp_witness :
    (∀ b, (envProduced.replicate = .produced b ∨
        envProduced.gradio = .produced b) → b.isSome = true) ∧
    (virtual_try_on envProduced (some personTestImg) "c.jpg" "shirt"
      "Upper-body" "auto" =
      .ok (some (resizeImg resultTestImg 100 200))) ∧
    (∃ r : Img, r.width = personTestImg.width ∧
      r.height = personTestImg.height ∧
      some (resizeImg resultTestImg 100 200) =
        add_watermark envProduced.wm (some r) defaultWatermarkText ∧
      ∀ o : Img, some (resizeImg resultTestImg 100 200) = some o →
        o.width = personTestImg.width ∧ o.height = personTestImg.height) := by
  have hdec : ∀ b, (envProduced.replicate = .produced b ∨
      envProduced.gradio = .produced b) → b.isSome = true := by
    intro b hb
    rcases hb with h | h
    · simp [envProduced] at h
    · simp only [envProduced] at h
      cases h
      rfl
  have hrun : virtual_try_on envProduced (some personTestImg) "c.jpg" "shirt"
      "Upper-body" "auto" = .ok (some (resizeImg resultTestImg 100 200)) := rfl
  exact ⟨hdec, hrun,
    C9_resize_to_original_before_stamp envProduced personTestImg "c.jpg"
      "shirt" "Upper-body" "auto" (some (resizeImg resultTestImg 100 200))
      hdec hrun⟩

/-- **C3.** (spec-modelled: the fallback 2D compositor is absent from the
code — `virtual_try_on` step 3 is "Fallback: Removed" — so `compose` is
modelled from spec §4.3.)  For `category = LowerBody` (non-dress) the
vertical origin of the garment placement is
`torso_center_y * person_height + person_height * 0.05`, for every
landmark set, garment size and coverage ratio; in particular with the
default landmarks on a 1000×1000 person canvas it is exactly 450. -/
theorem C3_compose_lower_body_vertical_origin
    (personW personH garmentW garmentH : ℕ) (lm : BodyLandmarks)
    (coverage : Option ℚ) :
    (composeGeometry personW personH garmentW garmentH lm
        GarmentCategory.LowerBody coverage).2.2.2 =
      lm.torso_center_y * (personH : ℚ) + (personH : ℚ) * (1/20) ∧
    (composeGeometry 1000 1000 garmentW garmentH defaultLandmarks
        GarmentCategory.LowerBody coverage).2.2.2 = 450 := by
  constructor
  · rfl
  · show (2/5 : ℚ) * (1000 : ℕ) + (1000 : ℕ) * (1/20) = 450
    norm_num
